import Mathlib

/-!
Verification of the RearWindow livability pipeline against its design
specification.  The definitions below are a shallow embedding of the
Python sources `parse.py`, `process_data.py` and `result.py`:

* the report parser (`parse.py`) is embedded as executable functions on
  `List Char` that mirror the behaviour of the concrete regular
  expressions used by the source (each regex is specialised to its
  literal pattern; `\d` and `\s` are modelled over their ASCII ranges,
  which covers all inputs used in the development);
* the batch orchestrator (`process_data.py`) is embedded as a fold over
  the identifier list, with the external retrieval gateway and the
  checkpoint-persistence layer supplied as oracles;
* the dataset merger (`result.py`) is embedded as a row map over an
  abstract dataframe.

Theorems about each testable property of the specification follow the
definitions.
-/

namespace RearWindow

/-- Cell values appearing in output rows.  `time` stands for the opaque
`datetime.now().isoformat()` timestamp; the sources never inspect it. -/
inductive Val where
  | int (n : Nat)
  | str (s : String)
  | time
  deriving DecidableEq, Repr

/-! ### Character classes (`parse.py` regexes, ASCII fragment) -/

/-- `\d` of the source regexes (ASCII decimal digits). -/
def isDigitChar (c : Char) : Bool := '0' ≤ c && c ≤ '9'

/-- `\s` of the source regexes (ASCII whitespace). -/
def isSpaceChar (c : Char) : Bool :=
  c = ' ' || c = '\t' || c = '\n' || c = '\r' || c = '\x0b' || c = '\x0c'

/-- Numeric value of a digit run, as produced by Python `int`. -/
def digitsToNat (ds : List Char) : Nat :=
  ds.foldl (fun n c => 10 * n + (c.toNat - '0'.toNat)) 0

/-- If `lit` is a prefix of `s`, return the remainder of `s`. -/
def dropLit : List Char → List Char → Option (List Char)
  | [], s => some s
  | _ :: _, [] => none
  | l :: ls, c :: cs => if l = c then dropLit ls cs else none

/-- First occurrence of the literal `lit` in `s`: the suffix of `s`
just after that occurrence (leftmost-match semantics of `re.search`). -/
def findLit (lit : List Char) : List Char → Option (List Char)
  | [] => dropLit lit []
  | c :: rest =>
    match dropLit lit (c :: rest) with
    | some suffix => some suffix
    | none => findLit lit rest

/-! ### `extract_overall_score` — regex `Overall Livability Score.*?is\s+(\d+)`
with `re.DOTALL`.  After the literal, the lazy gap stops at the first
position where `is\s+(\d+)` matches; the captured group is the maximal
digit run there. -/

/-- Match `is\s+(\d+)` at the head of `s`, returning the captured value. -/
def matchIsScore (s : List Char) : Option Nat :=
  match s with
  | 'i' :: 's' :: rest =>
    let ws := rest.takeWhile isSpaceChar
    let afterWs := rest.dropWhile isSpaceChar
    let ds := afterWs.takeWhile isDigitChar
    if ws ≠ [] && ds ≠ [] then some (digitsToNat ds) else none
  | _ => none

/-- First position in `s` where `is\s+(\d+)` matches (the lazy `.*?`
picks the earliest completion). -/
def searchIs : List Char → Option Nat
  | [] => none
  | c :: rest =>
    match matchIsScore (c :: rest) with
    | some n => some n
    | none => searchIs rest

/-- `extract_overall_score` of `parse.py`. -/
def extract_overall_score (text : String) : Option Nat :=
  match findLit "Overall Livability Score".data text.data with
  | none => none
  | some rest => searchIs rest

/-! ### `extract_category_scores` — regex `{cat}\n.*?\n0\n100\n(\d+)`
without `re.DOTALL`: the category label, a newline, one full line
(`.*?` cannot cross newlines, so it is forced to span the whole line),
then the lines `0` and `100`, then the captured digit run. -/

/-- After `cat ++ "\n"`: skip one full line, then require `0\n100\n`
followed by at least one digit; capture the maximal digit run. -/
def bracketAfterLine (s : List Char) : Option Nat :=
  match s.dropWhile (fun c => !(c = '\n')) with
  | '\n' :: t =>
    match dropLit "0\n100\n".data t with
    | some u =>
      let ds := u.takeWhile isDigitChar
      if ds ≠ [] then some (digitsToNat ds) else none
    | none => none
  | _ => none

/-- Leftmost start position at which the whole category pattern
completes (failed starts fall through to later positions, as
`re.search` does). -/
def searchCatScore (cat : List Char) : List Char → Option Nat
  | [] => none
  | c :: rest =>
    match dropLit cat (c :: rest) with
    | some ('\n' :: t) =>
      match bracketAfterLine t with
      | some n => some n
      | none => searchCatScore cat rest
    | _ => searchCatScore cat rest

/-- The fixed category list of `extract_category_scores`. -/
def categories : List String :=
  ["Housing", "Neighborhood", "Transportation", "Environment", "Health",
   "Engagement", "Opportunity"]

/-- Python `str.lower()` (ASCII). -/
def strLower (s : String) : String := ⟨s.data.map Char.toLower⟩

/-- `extract_category_scores` of `parse.py`: a mapping with one key per
fixed category (lower-cased), each value the extracted score or `none`. -/
def extract_category_scores (text : String) : List (String × Option Nat) :=
  categories.map (fun cat => (strLower cat, searchCatScore cat.data text.data))

/-! ### `extract_demographics` -/

/-- Capture group of `Zip Code (\d+)` / `Population:\n([\d,]+)` style
searches: scan for the literal, then require a non-empty run of the
given class right after it; on failure continue scanning. -/
def searchLitThenRun (lit : List Char) (cls : Char → Bool) :
    List Char → Option (List Char)
  | [] => none
  | c :: rest =>
    match dropLit lit (c :: rest) with
    | some after =>
      let run := after.takeWhile cls
      if run ≠ [] then some run
      else searchLitThenRun lit cls rest
    | none => searchLitThenRun lit cls rest

/-- Character class `[\d,]` of the population regex. -/
def popClassChar (c : Char) : Bool := isDigitChar c || c = ','

/-- Character class `[A-Za-z /]` of the race/ethnicity regex. -/
def raceClassChar (c : Char) : Bool :=
  ('A' ≤ c && c ≤ 'Z') || ('a' ≤ c && c ≤ 'z') || c = ' ' || c = '/'

/-- Character class `[\d<]` of the race/ethnicity regex. -/
def raceValChar (c : Char) : Bool := isDigitChar c || c = '<'

/-- `re.findall(r"([A-Za-z /]+):\n([\d<]+%)", text)`: non-overlapping
matches, scanning left to right; after a match, scanning resumes past
it.  Fuel is the length of the text (every step consumes at least one
character, so this is enough fuel). -/
def findallRaceAux : Nat → List Char → List (String × String)
  | 0, _ => []
  | _, [] => []
  | fuel + 1, c :: rest =>
    let run := List.takeWhile raceClassChar (c :: rest)
    match run, List.dropWhile raceClassChar (c :: rest) with
    | _ :: _, ':' :: '\n' :: t =>
      let vrun := t.takeWhile raceValChar
      match vrun, t.drop vrun.length with
      | _ :: _, '%' :: t2 =>
        (⟨run⟩, ⟨vrun ++ ['%']⟩) :: findallRaceAux fuel t2
      | _, _ => findallRaceAux fuel rest
    | _, _ => findallRaceAux fuel rest

def findallRace (s : List Char) : List (String × String) :=
  findallRaceAux s.length s

/-- Python `str.strip()` (whitespace at both ends). -/
def pyStrip (s : String) : String :=
  ⟨((s.data.dropWhile isSpaceChar).reverse.dropWhile isSpaceChar).reverse⟩

/-- `name.strip().replace("/", "_")` of `extract_demographics`. -/
def normRaceLabel (s : String) : String :=
  ⟨(pyStrip s).data.map (fun c => if c = '/' then '_' else c)⟩

/-- Insert-or-overwrite on an association list, keeping the original
position of an existing key (Python `dict` insertion semantics). -/
def assocSet {α : Type} [DecidableEq α] {β : Type} :
    List (α × β) → α → β → List (α × β)
  | [], k, v => [(k, v)]
  | (k', v') :: t, k, v =>
    if k' = k then (k, v) :: t else (k', v') :: assocSet t k v

/-- Parsed demographics: `total_population` (key present only when the
population regex matched) and the `race_ethnicity` mapping. -/
structure Demographics where
  totalPopulation : Option Nat
  raceEthnicity : List (String × String)
  deriving DecidableEq, Repr

/-- `extract_demographics` of `parse.py`.  `int(g.replace(",", ""))`
raises `ValueError` when the `[\d,]+` match consists only of commas;
that fallible conversion is the `Except.error` case. -/
def extract_demographics (text : String) : Except String Demographics :=
  let pop? := searchLitThenRun "Population:\n".data popClassChar text.data
  let race := (findallRace text.data).foldl
    (fun acc nv => assocSet acc (normRaceLabel nv.1) nv.2) []
  match pop? with
  | none => .ok ⟨none, race⟩
  | some run =>
    let digits := run.filter (fun c => !(c = ','))
    if digits = [] then .error "ValueError"
    else .ok ⟨some (digitsToNat digits), race⟩

/-- The parsed structured record (`LivabilityRecord` of the spec). -/
structure LivData where
  zipCode : Option String
  overall : Option Nat
  cats : List (String × Option Nat)
  totalPopulation : Option Nat
  raceEthnicity : List (String × String)
  deriving DecidableEq, Repr

/-- `parse_livability_text` of `parse.py`.  The zip-code, overall-score
and category extractions are total; the demographics extraction can
raise (see `extract_demographics`), in which case the whole parse
raises. -/
def parse_livability_text (text : String) : Except String LivData :=
  let zip := (searchLitThenRun "Zip Code ".data isDigitChar text.data).map
    (fun ds => String.mk ds)
  match extract_demographics text with
  | .error e => .error e
  | .ok demo =>
    .ok { zipCode := zip,
          overall := extract_overall_score text,
          cats := extract_category_scores text,
          totalPopulation := demo.totalPopulation,
          raceEthnicity := demo.raceEthnicity }

/-! ## `process_data.py` — checkpoint store and batch orchestrator -/

/-- `key.lower().replace(" ", "_").replace("/", "_")` as used by
`flatten_json` (and by `flatten_livability_data` in `result.py`);
lowering never produces a space or slash, so the three passes fuse into
one character map. -/
def cleanKey (s : String) : String :=
  ⟨s.data.map (fun c =>
    let lc := c.toLower
    if lc = ' ' ∨ lc = '/' then '_' else lc)⟩

/-- `json_data.get('categories', {}).get(cat)` — `none` when the key is
absent. -/
def lookupCat (cats : List (String × Option Nat)) (k : String) : Option Nat :=
  match cats.lookup k with
  | some v => v
  | none => none

/-- `flatten_json` of `process_data.py`: one output-row dictionary.
The keys are in Python `dict` insertion order; `'zip_code'` uses the
truthiness of the record's own zip (`json_data.get('zip_code') or
zip_code`), the race columns are one per (cleaned) label found in the
record, and `processed_date` is the opaque timestamp. -/
def flatten_json (d : LivData) (zipCode : String) : List (String × Option Val) :=
  [("zip_code", some (Val.str (match d.zipCode with
      | some z => if z = "" then zipCode else z
      | none => zipCode))),
   ("overall_livability_score", d.overall.map Val.int),
   ("housing_score", (lookupCat d.cats "housing").map Val.int),
   ("neighborhood_score", (lookupCat d.cats "neighborhood").map Val.int),
   ("transportation_score", (lookupCat d.cats "transportation").map Val.int),
   ("environment_score", (lookupCat d.cats "environment").map Val.int),
   ("health_score", (lookupCat d.cats "health").map Val.int),
   ("engagement_score", (lookupCat d.cats "engagement").map Val.int),
   ("opportunity_score", (lookupCat d.cats "opportunity").map Val.int),
   ("total_population", d.totalPopulation.map Val.int)]
  ++ d.raceEthnicity.foldl
      (fun acc kv => assocSet acc ("race_" ++ cleanKey kv.1) (some (Val.str kv.2))) []
  ++ [("processed_date", some Val.time)]

/-- The error record appended by `process_batch` when the gateway call
raises: only `zip_code`, `error` and `processed_date`. -/
def errorRow (zipCode e : String) : List (String × Option Val) :=
  [("zip_code", some (Val.str zipCode)), ("error", some (Val.str e)),
   ("processed_date", some Val.time)]

/-- The on-disk checkpoint file, as seen by `load_progress`:
absent; present but unreadable / not valid JSON (`json.load` raises);
valid JSON but not an object (the `progress.get` on the log line inside
the `try` raises `AttributeError`); or a parsed object with its three
optional fields. -/
inductive CkptFile where
  | absent
  | unreadable
  | notDict
  | parsed (processed failed : Option (List String)) (lastUpdated : Option String)
  deriving DecidableEq, Repr

/-- The progress dictionary held in memory (fields optional, mirroring
`progress.get(...)` accesses). -/
structure ProgressDict where
  processed : Option (List String)
  failed : Option (List String)
  lastUpdated : Option String
  deriving DecidableEq, Repr

/-- `{'processed': [], 'failed': [], 'last_updated': None}`. -/
def emptyProgressDict : ProgressDict := ⟨some [], some [], none⟩

/-- `load_progress` of `process_data.py`: every failure path (missing
file, unreadable file, JSON that is not an object) is caught and
yields the empty state; a parsed object is returned as-is. -/
def load_progress : CkptFile → ProgressDict
  | .absent => emptyProgressDict
  | .unreadable => emptyProgressDict
  | .notDict => emptyProgressDict
  | .parsed p f u => ⟨p, f, u⟩

/-- File-system operations performed by `save_progress`. -/
inductive FsOp where
  | openTrunc (path : String)
  | writeStr (path : String) (content : String)
  | close (path : String)
  | rename (src dst : String)
  deriving DecidableEq, Repr

def FsOp.isRename : FsOp → Bool
  | .rename _ _ => true
  | _ => false

/-- Does the operation act directly on the given path (rather than on a
temporary location)? -/
def FsOp.actsOn (p : String) : FsOp → Bool
  | .openTrunc q => q = p
  | .writeStr q _ => q = p
  | .close q => q = p
  | .rename _ _ => false

def PROGRESS_FILE : String := "processing_progress.json"

/-- The operation sequence of `save_progress`'s happy path:
`open(PROGRESS_FILE, 'w')` (which truncates the file in place),
`json.dump` of the serialized state, close.  No temporary file, no
rename. -/
def save_progress_ops (serialized : String) : List FsOp :=
  [.openTrunc PROGRESS_FILE, .writeStr PROGRESS_FILE serialized,
   .close PROGRESS_FILE]

/-- Effect of one operation on the checkpoint file's content. -/
def applyOp (content : String) : FsOp → String
  | .openTrunc _ => ""
  | .writeStr _ s => content ++ s
  | .close _ => content
  | .rename _ _ => content

/-- All contents a concurrent reader of the checkpoint file may observe
while the operations run (including before the first and after the
last). -/
def viewsDuring (old : String) (ops : List FsOp) : List String :=
  ops.scanl applyOp old

/-- Orchestrator run state: the two checkpoint sets, the trace of
gateway invocations, the accumulated output rows, the gateway call
counter, and counters of successful / failed checkpoint saves
(`save_progress` catches its own exceptions, so a failed save only
increments a counter and never propagates). -/
structure RunState where
  processedZips : Finset String
  failedZips : Finset String
  calls : List String
  rows : List (List (String × Option Val))
  callIdx : Nat
  saveOk : Nat
  saveFail : Nat
  deriving DecidableEq

/-- One iteration of the identifier loop of `process_batch`: call the
gateway (there is no cache consultation in `process_data.py`); on
success flatten the record, add to `processed`, drop from `failed`,
save progress; on failure add to `failed`, save progress, append an
error record.  `gw` maps the call index to the gateway outcome
(`Except.error` models a raised exception); `persist` tells whether the
n-th checkpoint save succeeds. -/
def processOne (gw : Nat → Except String LivData) (persist : Nat → Bool)
    (st : RunState) (z : String) : RunState :=
  let saveIdx := st.saveOk + st.saveFail
  match gw st.callIdx with
  | .ok d =>
    { processedZips := insert z st.processedZips
      failedZips := st.failedZips.erase z
      calls := st.calls ++ [z]
      rows := st.rows ++ [flatten_json d z]
      callIdx := st.callIdx + 1
      saveOk := if persist saveIdx then st.saveOk + 1 else st.saveOk
      saveFail := if persist saveIdx then st.saveFail else st.saveFail + 1 }
  | .error e =>
    { processedZips := st.processedZips
      failedZips := insert z st.failedZips
      calls := st.calls ++ [z]
      rows := st.rows ++ [errorRow z e]
      callIdx := st.callIdx + 1
      saveOk := if persist saveIdx then st.saveOk + 1 else st.saveOk
      saveFail := if persist saveIdx then st.saveFail else st.saveFail + 1 }

/-- `process_batch` of `process_data.py`.  Loads the checkpoint, builds
the `processed` / `failed` sets (`set(progress.get(..., []))`), filters
out already-processed identifiers, and folds the per-identifier loop
over the rest.  `cacheDir` models the on-disk `livability_data`
directory; it is a parameter of the run's environment but, exactly as
in the source, `process_batch` never reads it. -/
def process_batch (ids : List String) (ckpt : CkptFile)
    (_cacheDir : String → Option LivData)
    (gw : Nat → Except String LivData) (persist : Nat → Bool) : RunState :=
  (ids.filter (fun z =>
      decide (z ∉ ((load_progress ckpt).processed.getD []).toFinset))).foldl
    (processOne gw persist)
    { processedZips := ((load_progress ckpt).processed.getD []).toFinset,
      failedZips := ((load_progress ckpt).failed.getD []).toFinset,
      calls := [], rows := [], callIdx := 0, saveOk := 0, saveFail := 0 }

/-- Column set of one flushed batch: `pd.DataFrame(batch_results)`
unions the rows' keys in first-seen order; `to_csv` writes exactly
those columns. -/
def firstSeenKeys (rows : List (List (String × Option Val))) : List String :=
  rows.foldl (fun acc row => row.foldl
    (fun a kv => if kv.1 ∈ a then a else a ++ [kv.1]) acc) []

/-- Fuelled chunking; for a positive chunk size every step drops at
least one element, so fuel `l.length` is enough. -/
def chunksOfAux {α : Type} (n : Nat) : Nat → List α → List (List α)
  | 0, _ => []
  | _, [] => []
  | fuel + 1, a :: as => (a :: as).take n :: chunksOfAux n fuel ((a :: as).drop n)

/-- `remaining[i:i+batch_size]` slicing: consecutive chunks. -/
def chunksOf {α : Type} (n : Nat) (l : List α) : List (List α) :=
  chunksOfAux n l.length l

/-- The per-batch column sets written to the output CSV over a run
(each identifier contributes exactly one row, so the row list chunks
exactly as the identifier batches do). -/
def batchColumnSets (batchSize : Nat) (st : RunState) : List (List String) :=
  (chunksOf batchSize st.rows).map firstSeenKeys

/-! ## `result.py` — dataset merger -/

/-- `race_mapping` of `flatten_livability_data`: cleaned label → output
column. -/
def raceMapping : List (String × String) :=
  [("american", "race_american"),
   ("asian_american", "race_asian_american"),
   ("hispanic_latino", "race_hispanic_latino"),
   ("white", "race_white"),
   ("american_indian_alaska_native", "race_american_indian_alaska_native"),
   ("hawaiian", "race_hawaiian"),
   ("two_or_more_races", "race_two_or_more_races"),
   ("some_other_race", "race_some_other_race"),
   ("of_the_population_with_a_disability", "race_of_the_population_with_a_disability"),
   ("of_the_population_with_income_below_poverty", "race_of_the_population_with_income_below_poverty")]

/-- `livability_columns` of `enrich_result_csv` (also the key order of
the dictionaries built by `flatten_livability_data`). -/
def livabilityColumns : List String :=
  ["overall_livability_score", "housing_score", "neighborhood_score",
   "transportation_score", "environment_score", "health_score",
   "engagement_score", "opportunity_score", "total_population",
   "race_american", "race_asian_american", "race_hispanic_latino",
   "race_white", "race_american_indian_alaska_native", "race_hawaiian",
   "race_two_or_more_races", "race_some_other_race",
   "race_of_the_population_with_a_disability",
   "race_of_the_population_with_income_below_poverty"]

/-- Overwrite the value of an existing key, keeping its position.  In
`flatten_livability_data` every assigned key was pre-initialised, so
Python's `dict` assignment coincides with this in-place update. -/
def updateExisting (l : List (String × Option Val)) (k : String)
    (v : Option Val) : List (String × Option Val) :=
  l.map (fun kv => if kv.1 = k then (kv.1, v) else kv)

/-- The race-column block: all ten columns initialised to `None`, then
each race/ethnicity entry whose cleaned key appears in `race_mapping`
is written to its mapped column (entries with unmatched labels are
skipped). -/
def fillRace (entries : List (String × String)) : List (String × Option Val) :=
  entries.foldl
    (fun acc e =>
      match raceMapping.lookup (cleanKey e.1) with
      | some col => updateExisting acc col (some (Val.str e.2))
      | none => acc)
    (raceMapping.map (fun p => (p.2, (none : Option Val))))

/-- `flatten_livability_data` of `result.py`.  `none` models a falsy
`livability_data` (Python `None` or the empty dict), which yields every
column as `None`; otherwise the nine scalar columns are read from the
record and the ten race columns are filled through `race_mapping`. -/
def flatten_livability_data : Option LivData → List (String × Option Val)
  | none =>
    livabilityColumns.map (fun c => (c, (none : Option Val)))
  | some d =>
    [("overall_livability_score", d.overall.map Val.int),
     ("housing_score", (lookupCat d.cats "housing").map Val.int),
     ("neighborhood_score", (lookupCat d.cats "neighborhood").map Val.int),
     ("transportation_score", (lookupCat d.cats "transportation").map Val.int),
     ("environment_score", (lookupCat d.cats "environment").map Val.int),
     ("health_score", (lookupCat d.cats "health").map Val.int),
     ("engagement_score", (lookupCat d.cats "engagement").map Val.int),
     ("opportunity_score", (lookupCat d.cats "opportunity").map Val.int),
     ("total_population", d.totalPopulation.map Val.int)]
    ++ fillRace d.raceEthnicity

/-- One row of `Result.csv`: the (normalised) zip key, the untouched
pre-existing columns, and the livability-column block. -/
structure ResRow where
  zip : Option String
  base : List (String × Val)
  liv : List (String × Option Val)
  deriving DecidableEq

/-- `df['zip_code'].dropna().unique()`. -/
def uniqueZips (df : List ResRow) : List String :=
  (df.filterMap (fun r => r.zip)).dedup

/-- Per-row effect of the merge loop of `enrich_result_csv`: the
livability columns are first initialised to `None` for every row; a row
whose zip is present (every non-null zip is a key of the cache built
over `unique_zips`) is then filled from the flattened cache entry.
`dir` models the `livability_data` JSON directory
(`load_livability_data_from_json`). -/
def mergeRow (df : List ResRow) (dir : String → Option LivData)
    (r : ResRow) : ResRow :=
  { r with
    liv := match r.zip with
      | none => flatten_livability_data none
      | some z =>
        if z ∈ uniqueZips df then flatten_livability_data (dir z)
        else flatten_livability_data none }

/-- The dataset merge of `enrich_result_csv` (with `fetch_missing`
false, its default): enrich every row of the base dataset from the
cache directory. -/
def enrich_merge (df : List ResRow) (dir : String → Option LivData) :
    List ResRow :=
  df.map (mergeRow df dir)

/-- Gateway invocations made by the zip loop of `enrich_result_csv`: a
zip with cached data is never fetched; one without is fetched only when
`fetch_missing` is set. -/
def enrich_gateway_calls (zips : List String)
    (dir : String → Option LivData) (fetchMissing : Bool) : List String :=
  zips.foldl
    (fun acc z =>
      match dir z with
      | some _ => acc
      | none => if fetchMissing then acc ++ [z] else acc)
    []

/-! ## Concrete run environments used by counterexamples and witnesses -/

/-- A representative parsed record. -/
def sampleRec : LivData :=
  { zipCode := some "10001", overall := some 62,
    cats := [("housing", some 70)], totalPopulation := some 1000,
    raceEthnicity := [("White", "62%")] }

/-- A cache directory holding a record for identifier `"X"` only. -/
def cacheWithX : String → Option LivData :=
  fun z => if z = "X" then some sampleRec else none

/-- An empty cache directory. -/
def emptyCache : String → Option LivData := fun _ => none

/-- A gateway that always succeeds. -/
def gwAllOk : Nat → Except String LivData := fun _ => .ok sampleRec

/-- A gateway whose first call succeeds and whose later calls raise. -/
def gwOkThenErr : Nat → Except String LivData :=
  fun n => if n = 0 then .ok sampleRec else .error "boom"

/-- Checkpoint persistence that always succeeds. -/
def persistAll : Nat → Bool := fun _ => true

/-- Checkpoint persistence that always fails. -/
def persistNone : Nat → Bool := fun _ => false

/-! ## Helper lemmas about the orchestrator fold -/

lemma processOne_calls (gw : Nat → Except String LivData) (persist : Nat → Bool)
    (st : RunState) (z : String) :
    (processOne gw persist st z).calls = st.calls ++ [z] := by
  cases h : gw st.callIdx <;> simp [processOne, h]

/-- The per-identifier loop invokes the gateway once per identifier, in
order. -/
lemma foldl_calls (gw : Nat → Except String LivData) (persist : Nat → Bool) :
    ∀ (l : List String) (st : RunState),
      (l.foldl (processOne gw persist) st).calls = st.calls ++ l
  | [], st => by simp
  | z :: l, st => by
    rw [List.foldl_cons, foldl_calls gw persist l, processOne_calls]
    simp

/-- Identifiers collected by the fetch loop of `enrich_result_csv` all
had a cache miss. -/
lemma mem_enrich_foldl (dir : String → Option LivData) (fm : Bool) :
    ∀ (zips acc : List String) (z : String),
      z ∈ zips.foldl
        (fun acc z => match dir z with
          | some _ => acc
          | none => if fm then acc ++ [z] else acc) acc →
      z ∈ acc ∨ dir z = none
  | [], acc, z, h => Or.inl h
  | w :: zips, acc, z, h => by
    rw [List.foldl_cons] at h
    rcases mem_enrich_foldl dir fm zips _ z h with h' | h'
    · cases hw : dir w with
      | some d =>
        simp only [hw] at h'
        exact Or.inl h'
      | none =>
        simp only [hw] at h'
        cases fm with
        | true =>
          simp at h'
          rcases h' with h2 | h2
          · exact Or.inl h2
          · exact Or.inr (by rw [h2]; exact hw)
        | false =>
          simp at h'
          exact Or.inl h'
    · exact Or.inr h'

/-- Every row appended by the loop is either a flattened record or an
error record. -/
lemma foldl_rows_shape (gw : Nat → Except String LivData) (persist : Nat → Bool) :
    ∀ (l : List String) (st : RunState)
      (r : List (String × Option Val)),
      (∀ r' ∈ st.rows, (∃ d z, r' = flatten_json d z) ∨ ∃ z e, r' = errorRow z e) →
      r ∈ (l.foldl (processOne gw persist) st).rows →
      (∃ d z, r = flatten_json d z) ∨ ∃ z e, r = errorRow z e
  | [], st, r, hst, hr => hst r hr
  | z :: l, st, r, hst, hr => by
    rw [List.foldl_cons] at hr
    refine foldl_rows_shape gw persist l _ r ?_ hr
    intro r' hr'
    cases h : gw st.callIdx with
    | ok d =>
      simp only [processOne, h, List.mem_append, List.mem_singleton] at hr'
      rcases hr' with hr' | rfl
      · exact hst r' hr'
      · exact Or.inl ⟨d, z, rfl⟩
    | error e =>
      simp only [processOne, h, List.mem_append, List.mem_singleton] at hr'
      rcases hr' with hr' | rfl
      · exact hst r' hr'
      · exact Or.inr ⟨z, e, rfl⟩

/-- Outside the two save counters, the run is oblivious to the
persistence oracle (`save_progress` swallows its failures). -/
lemma foldl_persist_indep (gw : Nat → Except String LivData) (p p' : Nat → Bool) :
    ∀ (l : List String) (st st' : RunState),
      st.processedZips = st'.processedZips → st.failedZips = st'.failedZips →
      st.calls = st'.calls → st.rows = st'.rows → st.callIdx = st'.callIdx →
      (l.foldl (processOne gw p) st).processedZips =
          (l.foldl (processOne gw p') st').processedZips ∧
        (l.foldl (processOne gw p) st).failedZips =
          (l.foldl (processOne gw p') st').failedZips ∧
        (l.foldl (processOne gw p) st).calls =
          (l.foldl (processOne gw p') st').calls ∧
        (l.foldl (processOne gw p) st).rows =
          (l.foldl (processOne gw p') st').rows ∧
        (l.foldl (processOne gw p) st).callIdx =
          (l.foldl (processOne gw p') st').callIdx
  | [], st, st', h1, h2, h3, h4, h5 => ⟨h1, h2, h3, h4, h5⟩
  | z :: l, st, st', h1, h2, h3, h4, h5 => by
    rw [List.foldl_cons, List.foldl_cons]
    refine foldl_persist_indep gw p p' l _ _ ?_ ?_ ?_ ?_ ?_ <;>
      · cases h : gw st.callIdx <;>
          simp [processOne, h, ← h5, h1, h2, h3, h4]

/-! ## Claim C1 — cache precedence in the batch orchestrator -/

/-- Claim C1 counterexample: the cache holds a record for `"X"`, the
checkpoint is empty (so `"X"` is not in `processed`), yet re-running
`process_batch` invokes the gateway for `"X"`: the orchestrator never
consults the cache. -/
theorem c1_counterexample :
    cacheWithX "X" = some sampleRec ∧
    (process_batch ["X"] CkptFile.absent cacheWithX gwAllOk persistAll).calls = ["X"] :=
  ⟨rfl, rfl⟩

/-- Claim C1 (amended): `process_batch` skips the gateway exactly for
identifiers in the checkpoint's `processed` set, regardless of the
cache contents; the cache-precedence behaviour exists only in
`enrich_result_csv`, whose loop never fetches an identifier that has
cached data. -/
theorem c1_amended :
    (∀ ids ckpt cacheDir gw persist,
      (process_batch ids ckpt cacheDir gw persist).calls =
        ids.filter (fun z =>
          decide (z ∉ ((load_progress ckpt).processed.getD []).toFinset))) ∧
    ∀ zips dir fm z, (dir z).isSome = true →
      z ∉ enrich_gateway_calls zips dir fm := by
  constructor
  · intro ids ckpt cacheDir gw persist
    unfold process_batch
    rw [foldl_calls]
    simp
  · intro zips dir fm z hz hmem
    rcases mem_enrich_foldl dir fm zips [] z hmem with h | h
    · exact (List.not_mem_nil z) h
    · rw [h] at hz
      exact Bool.noConfusion hz

/-- Witness for the amended C1 at a concrete input. -/
theorem c1_amended_witness :
    "X" ∉ enrich_gateway_calls ["X"] cacheWithX true ∧
    (process_batch ["X"] CkptFile.absent cacheWithX gwAllOk persistAll).calls =
      ["X"].filter (fun z =>
        decide (z ∉ ((load_progress CkptFile.absent).processed.getD []).toFinset)) :=
  ⟨c1_amended.2 ["X"] cacheWithX true "X" rfl,
   c1_amended.1 ["X"] CkptFile.absent cacheWithX gwAllOk persistAll⟩

/-! ## Claim C2 — atomicity of the checkpoint save -/

/-- Claim C2 counterexample: during `save_progress` a concurrent reader
can observe the empty, truncated file — neither the old nor the new
state — and no operation of the save is a rename. -/
theorem c2_counterexample :
    "" ∈ viewsDuring "OLD" (save_progress_ops "NEW") ∧
    "" ≠ "OLD" ∧ "" ≠ "NEW" ∧
    ∀ op ∈ save_progress_ops "NEW", op.isRename = false := by
  decide

/-- Claim C2 (amended): `save_progress` writes the serialized state
directly over the checkpoint file — truncate, write, close, with no
temporary location and no rename — so whenever the old and new contents
are non-empty, a concurrent reader can observe an intermediate content
equal to neither. -/
theorem c2_amended (old s : String) (hold : old ≠ "") (hs : s ≠ "") :
    (∀ op ∈ save_progress_ops s,
      op.isRename = false ∧ op.actsOn PROGRESS_FILE = true) ∧
    ∃ v ∈ viewsDuring old (save_progress_ops s), v ≠ old ∧ v ≠ s := by
  constructor
  · intro op hop
    simp only [save_progress_ops, List.mem_cons, List.not_mem_nil, or_false] at hop
    rcases hop with rfl | rfl | rfl <;>
      simp [FsOp.isRename, FsOp.actsOn]
  · refine ⟨"", ?_, fun h => hold h.symm, fun h => hs h.symm⟩
    simp [viewsDuring, save_progress_ops, List.scanl, applyOp]

/-- Witness for the amended C2 at a concrete input. -/
theorem c2_amended_witness :
    (∀ op ∈ save_progress_ops "NEW",
      op.isRename = false ∧ op.actsOn PROGRESS_FILE = true) ∧
    ∃ v ∈ viewsDuring "OLD" (save_progress_ops "NEW"), v ≠ "OLD" ∧ v ≠ "NEW" :=
  c2_amended "OLD" "NEW" (by decide) (by decide)

/-! ## Claim C3 — persistence failure is (not) fatal -/

/-- Claim C3 counterexample: with a persistence layer whose every write
fails, both identifiers are still processed — the gateway is invoked
for `"B"` even though the checkpoint save after `"A"` already raised
(and both failed saves were recorded). -/
theorem c3_counterexample :
    (process_batch ["A", "B"] CkptFile.absent emptyCache gwAllOk persistNone).saveFail = 2 ∧
    (process_batch ["A", "B"] CkptFile.absent emptyCache gwAllOk persistNone).calls =
      ["A", "B"] := by
  constructor <;> rfl

/-- Claim C3 (amended): a checkpoint write failure is caught and logged
inside `save_progress` and never aborts the run: the gateway-call
trace, the output rows, and the final `processed` / `failed` sets are
identical under any two persistence oracles. -/
theorem c3_amended (ids : List String) (ckpt : CkptFile)
    (cacheDir : String → Option LivData) (gw : Nat → Except String LivData)
    (p p' : Nat → Bool) :
    (process_batch ids ckpt cacheDir gw p).processedZips =
        (process_batch ids ckpt cacheDir gw p').processedZips ∧
      (process_batch ids ckpt cacheDir gw p).failedZips =
        (process_batch ids ckpt cacheDir gw p').failedZips ∧
      (process_batch ids ckpt cacheDir gw p).calls =
        (process_batch ids ckpt cacheDir gw p').calls ∧
      (process_batch ids ckpt cacheDir gw p).rows =
        (process_batch ids ckpt cacheDir gw p').rows := by
  have h := foldl_persist_indep gw p p'
    (ids.filter (fun z =>
      decide (z ∉ ((load_progress ckpt).processed.getD []).toFinset)))
    { processedZips := ((load_progress ckpt).processed.getD []).toFinset,
      failedZips := ((load_progress ckpt).failed.getD []).toFinset,
      calls := [], rows := [], callIdx := 0, saveOk := 0, saveFail := 0 }
    { processedZips := ((load_progress ckpt).processed.getD []).toFinset,
      failedZips := ((load_progress ckpt).failed.getD []).toFinset,
      calls := [], rows := [], callIdx := 0, saveOk := 0, saveFail := 0 }
    rfl rfl rfl rfl rfl
  exact ⟨h.1, h.2.1, h.2.2.1, h.2.2.2.1⟩

/-! ## Claim C4 — parser totality -/

/-- Claim C4: the parser is not total.  On the input
`"Population:\n,"` the population regex `[\d,]+` matches the single
comma, `int("".replace)` is reached with the empty string, and
`parse_livability_text` raises `ValueError` instead of returning a
record. -/
theorem c4_parse_raises :
    parse_livability_text "Population:\n," = Except.error "ValueError" := rfl

/-! ## Claim C5 — per-row column sets of the output dataset -/

/-- Claim C5 counterexample: with batch size 1, the first flushed batch
(a successfully parsed record) is written with the full score columns
plus one race column, while the second (a gateway failure) is written
with only `zip_code`, `error`, `processed_date`: the column set is not
fixed for the life of the run. -/
theorem c5_counterexample :
    batchColumnSets 1
        (process_batch ["111", "222"] CkptFile.absent emptyCache gwOkThenErr persistAll) =
      [["zip_code", "overall_livability_score", "housing_score", "neighborhood_score",
        "transportation_score", "environment_score", "health_score", "engagement_score",
        "opportunity_score", "total_population", "race_white", "processed_date"],
       ["zip_code", "error", "processed_date"]] ∧
    (["zip_code", "error", "processed_date"] : List String) ≠
      ["zip_code", "overall_livability_score", "housing_score", "neighborhood_score",
       "transportation_score", "environment_score", "health_score", "engagement_score",
       "opportunity_score", "total_population", "race_white", "processed_date"] := by
  exact ⟨rfl, by decide⟩

/-- Claim C5 (amended): every output row is either the flattening of a
parsed record — whose columns are the fixed scalar fields plus one
`race_*` column per cleaned label found in that record plus the
timestamp — or the three-column error record; the column set therefore
varies with record content and outcome. -/
theorem c5_amended (ids : List String) (ckpt : CkptFile)
    (cacheDir : String → Option LivData) (gw : Nat → Except String LivData)
    (persist : Nat → Bool) (r : List (String × Option Val))
    (hr : r ∈ (process_batch ids ckpt cacheDir gw persist).rows) :
    (∃ d z, r = flatten_json d z) ∨ ∃ z e, r = errorRow z e := by
  unfold process_batch at hr
  exact foldl_rows_shape gw persist _ _ r
    (fun r' h' => absurd h' (List.not_mem_nil r')) hr

/-- Witness for the amended C5 at a concrete input. -/
theorem c5_amended_witness :
    (∃ d z, flatten_json sampleRec "111" = flatten_json d z) ∨
      ∃ z e, flatten_json sampleRec "111" = errorRow z e :=
  c5_amended ["111"] CkptFile.absent emptyCache gwAllOk persistAll
    (flatten_json sampleRec "111") (by decide)

/-! ## Claim C6 — extracted scores lie in [0, 100] -/

/-- Claim C6 counterexample: the parser performs no range check; on the
input `"Overall Livability Score is 250"` it extracts the overall score
250, which exceeds 100. -/
theorem c6_counterexample :
    extract_overall_score "Overall Livability Score is 250" = some 250 ∧
    (parse_livability_text "Overall Livability Score is 250").map LivData.overall =
      Except.ok (some 250) ∧
    ¬(250 ≤ 100) := ⟨rfl, rfl, by decide⟩

/-- Claim C6 (amended): every extracted overall or category score is a
non-negative integer (the value of a decimal digit run); no upper bound
is enforced. -/
theorem c6_amended :
    (∀ (text : String) (n : Nat),
      extract_overall_score text = some n → (0 : Int) ≤ (n : Int)) ∧
    ∀ (text c : String) (n : Nat),
      lookupCat (extract_category_scores text) c = some n → (0 : Int) ≤ (n : Int) :=
  ⟨fun _ n _ => Int.natCast_nonneg n, fun _ _ n _ => Int.natCast_nonneg n⟩

/-- Witness for the amended C6 at a concrete input. -/
theorem c6_amended_witness : (0 : Int) ≤ ((250 : Nat) : Int) :=
  c6_amended.1 "Overall Livability Score is 250" 250 rfl

/-! ## Claim C7 — `processed` and `failed` stay disjoint -/

/-- The per-identifier loop keeps `processed` and `failed` disjoint as
long as no pending identifier is already in `processed`. -/
lemma foldl_disjoint (gw : Nat → Except String LivData) (persist : Nat → Bool) :
    ∀ (l : List String) (st : RunState),
      l.Nodup → Disjoint st.processedZips st.failedZips →
      (∀ z ∈ l, z ∉ st.processedZips) →
      Disjoint (l.foldl (processOne gw persist) st).processedZips
        (l.foldl (processOne gw persist) st).failedZips
  | [], _, _, hd, _ => hd
  | z :: l, st, hnd, hd, hmem => by
    rw [List.foldl_cons]
    have hz : z ∉ st.processedZips := hmem z (List.mem_cons_self z l)
    refine foldl_disjoint gw persist l _ hnd.of_cons ?_ ?_
    · cases h : gw st.callIdx with
      | ok d =>
        simp only [processOne, h]
        rw [Finset.disjoint_left]
        intro a ha hfa
        rcases Finset.mem_insert.mp ha with rfl | ha'
        · exact (Finset.not_mem_erase a st.failedZips) hfa
        · exact (Finset.disjoint_left.mp hd ha') (Finset.mem_of_mem_erase hfa)
      | error e =>
        simp only [processOne, h]
        rw [Finset.disjoint_left]
        intro a ha hfa
        rcases Finset.mem_insert.mp hfa with rfl | hfa'
        · exact hz ha
        · exact (Finset.disjoint_left.mp hd ha) hfa'
    · intro w hw
      cases h : gw st.callIdx with
      | ok d =>
        simp only [processOne, h]
        intro hmem'
        rcases Finset.mem_insert.mp hmem' with rfl | h'
        · exact (List.nodup_cons.mp hnd).1 hw
        · exact hmem w (List.mem_cons_of_mem z hw) h'
      | error e =>
        simp only [processOne, h]
        exact hmem w (List.mem_cons_of_mem z hw)

/-- Claim C7 counterexample: with the duplicate identifier list
`["X", "X"]` and a gateway that succeeds on the first call and raises
on the second, the run ends with `"X"` in both `processed` and
`failed` (the failure branch adds to `failed` without checking
`processed`). -/
theorem c7_counterexample :
    "X" ∈ (process_batch ["X", "X"] CkptFile.absent emptyCache gwOkThenErr
        persistAll).processedZips ∧
    "X" ∈ (process_batch ["X", "X"] CkptFile.absent emptyCache gwOkThenErr
        persistAll).failedZips := by
  decide

/-- Claim C7 (amended): for every duplicate-free identifier list and
every initial checkpoint whose `processed` and `failed` sets are
disjoint, the run ends with `processed` and `failed` disjoint. -/
theorem c7_amended (ids : List String) (ckpt : CkptFile)
    (cacheDir : String → Option LivData) (gw : Nat → Except String LivData)
    (persist : Nat → Bool) (hnd : ids.Nodup)
    (hdisj : Disjoint ((load_progress ckpt).processed.getD []).toFinset
      ((load_progress ckpt).failed.getD []).toFinset) :
    Disjoint (process_batch ids ckpt cacheDir gw persist).processedZips
      (process_batch ids ckpt cacheDir gw persist).failedZips := by
  unfold process_batch
  refine foldl_disjoint gw persist _ _ (hnd.filter _) hdisj ?_
  intro z hz
  show z ∉ ((load_progress ckpt).processed.getD []).toFinset
  simp only [List.mem_filter, decide_eq_true_eq] at hz
  exact hz.2

/-- Witness for the amended C7 at a concrete input. -/
theorem c7_amended_witness :
    Disjoint (process_batch ["A"] CkptFile.absent emptyCache gwAllOk
        persistAll).processedZips
      (process_batch ["A"] CkptFile.absent emptyCache gwAllOk
        persistAll).failedZips :=
  c7_amended ["A"] CkptFile.absent emptyCache gwAllOk persistAll
    (List.nodup_singleton "A") (by simp [load_progress, emptyProgressDict])

/-! ## Claim C8 — merge idempotence -/

/-- Merging changes only the livability columns, never the zip key. -/
lemma uniqueZips_enrich (df : List ResRow) (dir : String → Option LivData) :
    uniqueZips (enrich_merge df dir) = uniqueZips df := by
  unfold uniqueZips enrich_merge
  rw [List.filterMap_map]
  congr 1

/-- Re-merging a row that was already merged from the same cache is a
no-op. -/
lemma mergeRow_idem (df : List ResRow) (dir : String → Option LivData)
    (r : ResRow) :
    mergeRow (enrich_merge df dir) dir (mergeRow df dir r) = mergeRow df dir r := by
  unfold mergeRow
  cases hr : r.zip with
  | none => simp [hr]
  | some z => simp [hr, uniqueZips_enrich df dir]

/-- Claim C8: the dataset merge of `enrich_result_csv` is idempotent —
merging the same cache onto the already-merged dataset reproduces it
exactly. -/
theorem c8_merge_idempotent (df : List ResRow) (dir : String → Option LivData) :
    enrich_merge (enrich_merge df dir) dir = enrich_merge df dir := by
  have h1 : enrich_merge (enrich_merge df dir) dir =
      List.map (fun r => mergeRow (enrich_merge df dir) dir (mergeRow df dir r)) df := by
    show List.map (mergeRow (enrich_merge df dir) dir)
        (List.map (mergeRow df dir) df) = _
    rw [List.map_map]
    rfl
  rw [h1]
  show _ = List.map (mergeRow df dir) df
  exact List.map_congr_left fun r _ => mergeRow_idem df dir r

/-! ## Claim C9 — checkpoint loading never raises -/

/-- Claim C9: `load_progress` returns the empty state when the
checkpoint file is absent, unreadable, or not a JSON object (every
failure is caught), and a run starting from such a checkpoint calls
the gateway for every identifier — a corrupt checkpoint silently
resets progress. -/
theorem c9_load_progress_resets (f : CkptFile)
    (hf : f = CkptFile.absent ∨ f = CkptFile.unreadable ∨ f = CkptFile.notDict) :
    load_progress f = emptyProgressDict ∧
    ∀ ids cacheDir gw persist,
      (process_batch ids f cacheDir gw persist).calls = ids := by
  have hl : load_progress f = emptyProgressDict := by
    rcases hf with rfl | rfl | rfl <;> rfl
  refine ⟨hl, ?_⟩
  intro ids cacheDir gw persist
  unfold process_batch
  rw [foldl_calls, hl]
  simp [emptyProgressDict]

/-- Witness for C9 at a concrete input. -/
theorem c9_witness :
    load_progress CkptFile.unreadable = emptyProgressDict ∧
    (process_batch ["A", "B"] CkptFile.unreadable emptyCache gwAllOk
        persistAll).calls = ["A", "B"] := by
  have h := c9_load_progress_resets CkptFile.unreadable (Or.inr (Or.inl rfl))
  exact ⟨h.1, h.2 ["A", "B"] emptyCache gwAllOk persistAll⟩

/-! ## Claim C10 — fixed race columns in the merger, per-label columns
in the orchestrator -/

lemma updateExisting_keys (l : List (String × Option Val)) (k : String)
    (v : Option Val) :
    (updateExisting l k v).map Prod.fst = l.map Prod.fst := by
  unfold updateExisting
  rw [List.map_map]
  refine List.map_congr_left fun a _ => ?_
  by_cases h : a.1 = k <;> simp [h]

lemma raceStep_keys (acc : List (String × Option Val)) (e : String × String) :
    ((match raceMapping.lookup (cleanKey e.1) with
      | some col => updateExisting acc col (some (Val.str e.2))
      | none => acc).map Prod.fst) = acc.map Prod.fst := by
  cases h : raceMapping.lookup (cleanKey e.1) with
  | none => rfl
  | some col => exact updateExisting_keys acc col _

lemma fillRace_foldl_keys :
    ∀ (entries : List (String × String)) (acc : List (String × Option Val)),
      ((entries.foldl (fun acc e =>
        match raceMapping.lookup (cleanKey e.1) with
        | some col => updateExisting acc col (some (Val.str e.2))
        | none => acc) acc).map Prod.fst) = acc.map Prod.fst
  | [], _ => rfl
  | e :: es, acc => by
    rw [List.foldl_cons, fillRace_foldl_keys es _, raceStep_keys]

/-- The race block always carries exactly the ten mapped columns. -/
lemma fillRace_keys (entries : List (String × String)) :
    (fillRace entries).map Prod.fst = raceMapping.map Prod.snd := by
  unfold fillRace
  rw [fillRace_foldl_keys, List.map_map]
  rfl

lemma assocSet_keys_self {β : Type} (l : List (String × β)) (k : String) (v : β) :
    k ∈ (assocSet l k v).map Prod.fst := by
  induction l with
  | nil => simp [assocSet]
  | cons a l ih =>
    by_cases h : a.1 = k
    · simp [assocSet, h]
    · simp only [assocSet, if_neg h, List.map_cons, List.mem_cons]
      exact Or.inr ih

lemma assocSet_keys_mono {β : Type} (l : List (String × β)) (k : String) (v : β)
    (a : String) (ha : a ∈ l.map Prod.fst) :
    a ∈ (assocSet l k v).map Prod.fst := by
  induction l with
  | nil => simp at ha
  | cons b l ih =>
    by_cases h : b.1 = k
    · simp only [assocSet, if_pos h, List.map_cons, List.mem_cons] at *
      rcases ha with ha | ha
      · exact Or.inl (by rw [ha, h])
      · exact Or.inr ha
    · simp only [assocSet, if_neg h, List.map_cons, List.mem_cons] at *
      rcases ha with ha | ha
      · exact Or.inl ha
      · exact Or.inr (ih ha)

/-- Every race label of the record surfaces as a key of the
orchestrator's race fold. -/
lemma raceFold_mem :
    ∀ (entries : List (String × String)) (acc : List (String × Option Val))
      (label v : String),
      ((label, v) ∈ entries ∨ ("race_" ++ cleanKey label) ∈ acc.map Prod.fst) →
      ("race_" ++ cleanKey label) ∈
        ((entries.foldl (fun acc kv =>
          assocSet acc ("race_" ++ cleanKey kv.1) (some (Val.str kv.2)))
            acc).map Prod.fst)
  | [], _, label, v, h => by
    rcases h with h | h
    · exact absurd h (List.not_mem_nil _)
    · exact h
  | e :: es, acc, label, v, h => by
    rw [List.foldl_cons]
    rcases h with h | h
    · rcases List.mem_cons.mp h with heq | h'
      · refine raceFold_mem es _ label v (Or.inr ?_)
        have hk : ("race_" ++ cleanKey label) = ("race_" ++ cleanKey e.1) := by
          rw [← heq]
        rw [hk]
        exact assocSet_keys_self acc _ _
      · exact raceFold_mem es _ label v (Or.inl h')
    · exact raceFold_mem es _ label v (Or.inr (assocSet_keys_mono acc _ _ _ h))

/-- Claim C10: the merger's `flatten_livability_data` always outputs
exactly the fixed nineteen columns (ten fixed `race_*` columns);
appending a race entry whose cleaned label is outside `race_mapping`
leaves its output unchanged (silently discarded); the orchestrator's
`flatten_json`, by contrast, emits a `race_*` column for every label
found in the record. -/
theorem c10_merger_race_columns :
    (∀ ld, (flatten_livability_data ld).map Prod.fst = livabilityColumns) ∧
    (∀ (d : LivData) (label v : String),
      raceMapping.lookup (cleanKey label) = none →
      flatten_livability_data
          (some { d with raceEthnicity := d.raceEthnicity ++ [(label, v)] }) =
        flatten_livability_data (some d)) ∧
    ∀ (d : LivData) (z label v : String), (label, v) ∈ d.raceEthnicity →
      ("race_" ++ cleanKey label) ∈ (flatten_json d z).map Prod.fst := by
  refine ⟨?_, ?_, ?_⟩
  · intro ld
    cases ld with
    | none => rfl
    | some d =>
      show (_ ++ fillRace d.raceEthnicity).map Prod.fst = _
      rw [List.map_append, fillRace_keys]
      rfl
  · intro d label v h
    simp only [flatten_livability_data, fillRace]
    rw [List.foldl_append]
    simp [h]
  · intro d z label v h
    have hm := raceFold_mem d.raceEthnicity [] label v (Or.inl h)
    unfold flatten_json
    rw [List.map_append, List.map_append]
    exact List.mem_append.mpr (Or.inl (List.mem_append.mpr (Or.inr hm)))

/-- Witness for C10 at a concrete input. -/
theorem c10_witness :
    flatten_livability_data
        (some { sampleRec with
          raceEthnicity := sampleRec.raceEthnicity ++ [("Martian", "5%")] }) =
      flatten_livability_data (some sampleRec) ∧
    ("race_" ++ cleanKey "White") ∈ (flatten_json sampleRec "10001").map Prod.fst :=
  ⟨c10_merger_race_columns.2.1 sampleRec "Martian" "5%" rfl,
   c10_merger_race_columns.2.2 sampleRec "10001" "White" "62%" (by decide)⟩

end RearWindow
